import Mathlib

/-!
Shallow embedding of the PineyEvent library (src/piney_event/event.py and
src/piney_event/event_queue.py).

Modelling choices, all taken from the source:
  * Python objects that can be targets of `weakref.ref` / `weakref.WeakMethod`
    live in a heap `heap : List Callback` addressed by `Nat` ids; garbage
    collection of a referent is recorded in `dead : List Nat`.  Dereferencing a
    weak reference (`connection.callback()`) yields `none` for a collected id.
  * A user callback is a `Callback`: its `params` field is the parameter list
    that `inspect.signature` reports (for bound methods Python already strips
    `self`; for plain functions written with a `self` parameter the name stays,
    which is why `TypedEvent.connect` discounts parameters literally named
    "self").  Its `act` field is the callback body, restricted to the effects
    the claims exercise: doing nothing, or re-emitting on a managed event
    (`e.emit(*args)` where `e.manager is not None`, which by `Event.emit`
    reduces to `manager.emit(e, *args)`, i.e. an enqueue).
  * Side effects observable in the claims are recorded in a `trace`:
    a callback invocation (`called`) and the warning sent through the log sink
    (`warned`, carrying the argument count, expected count and argument values
    that the f-string on event.py line 128 interpolates).
  * The single manager in scope is an `EventQueue`; its `emit_queue` is the
    `queue` field of the global state.  `EventQueue.events` (touched only by
    `setup`/`delete`) plays no role in any claim and is omitted.
  * Python exceptions are the `Except` monad.  `TypeError` is split by raise
    site, mirroring the distinct messages: `connectArityMismatch`
    (TypedEvent.connect), `emitTypeMismatch` (TypedEvent.emit) and
    `callArityMismatch` (the TypeError Python itself raises when a plain
    function is called with the wrong number of positional arguments, before
    its body runs).  `IndexError` is raised by list indexing out of range.
-/

namespace Piney

/-- Runtime types, as compared by `type(param)` with exact identity. -/
inductive PyType where
  | strT
  | intT
  | boolT
deriving DecidableEq, Repr

/-- Runtime values passed as emit arguments. -/
inductive Value where
  | str (s : String)
  | int (n : Int)
  | bool (b : Bool)
deriving DecidableEq, Repr

/-- `type(v)`. -/
def typeOf : Value → PyType
  | .str _ => .strT
  | .int _ => .intT
  | .bool _ => .boolT

/-- Python truthiness, used by `if managed:`. -/
def truthy : Value → Bool
  | .str s => s ≠ ""
  | .int n => n ≠ 0
  | .bool b => b

/-- The body of a user callback: either it has no effect the model observes,
or it is `e.emit(*args)` on the event with id `eid` (which, when that event
has a manager, is the managed enqueue path of `Event.emit`). -/
inductive CbAct where
  | pure
  | emitManaged (eid : Nat) (args : List Value)
deriving DecidableEq, Repr

/-- A Python callable: the parameters `inspect.signature` reports, and its
body. -/
structure Callback where
  params : List String
  act : CbAct
deriving DecidableEq, Repr

/-- `Event.Connection`: a weak reference (heap id) plus the connect flags. -/
structure Connection where
  callback : Nat
  flags : Nat
deriving DecidableEq, Repr

/-- `Event.ConnectFlags.CONNECT_ONE_SHOT = 1 << 0`. -/
def CONNECT_ONE_SHOT : Nat := 1

/-- `Event.ConnectFlags.CONNECT_DIRECT = 1 << 1`. -/
def CONNECT_DIRECT : Nat := 2

/-- The mutable fields of an `Event` the claims touch.  `logWarn` models
`log_warn_function is not None` (default: the module logger, i.e. `true`);
`hasManager` models `manager is not None`, the manager being the `EventQueue`
of the global state. -/
structure EventRec where
  receivers : List Connection
  catch_error : Bool
  logWarn : Bool
  hasManager : Bool
deriving DecidableEq, Repr

/-- `EventQueue.EmitObj`: the event (by id), the positional arguments, and the
receiver snapshot taken at emit time. -/
structure EmitObj where
  event : Nat
  args : List Value
  receivers : List Connection
deriving DecidableEq, Repr

/-- Observable side effects, in order of occurrence. -/
inductive TraceEntry where
  | called (cb : Nat) (args : List Value)
  | warned (numArgs numParams : Nat) (args : List Value)
deriving DecidableEq, Repr

/-- Python exceptions, split by raise site (each has a distinct message in the
source).  `callArityMismatch` carries `(numParams, numArgs)`;
`connectArityMismatch` carries `(expected, got)` as in the message of
`TypedEvent.connect`; `emitTypeMismatch` carries `(expected, got)` type
tuples as in the message of `TypedEvent.emit`. -/
inductive PyError where
  | callArityMismatch (numParams numArgs : Nat)
  | connectArityMismatch (expected got : Nat)
  | emitTypeMismatch (expected got : List PyType)
  | indexError
deriving DecidableEq, Repr

/-- The global state: the heap of callables, the set of collected referents,
the events, the manager's `emit_queue`, and the effect trace. -/
structure PyState where
  heap : List Callback
  dead : List Nat
  events : List EventRec
  queue : List EmitObj
  trace : List TraceEntry
deriving DecidableEq, Repr

/-- Dereference a weak reference: `connection.callback()`. -/
def deref (st : PyState) (cbId : Nat) : Option Callback :=
  if st.dead.contains cbId then none else st.heap.get? cbId

/-- Replace event `eid` in place (Python mutates the `Event` object). -/
def modifyEvent (st : PyState) (eid : Nat) (f : EventRec → EventRec) : PyState :=
  match st.events.get? eid with
  | some ev => { st with events := st.events.set eid (f ev) }
  | none => st

/-- `c.flags & Event.ConnectFlags.CONNECT_DIRECT == 0` (the snapshot filter of
`EventQueue.emit`, event_queue.py line 40). -/
def nonDirect (c : Connection) : Bool :=
  (c.flags &&& CONNECT_DIRECT) == 0

/-- `EventQueue.emit(self, event, *args, **kwargs)`: appends an `EmitObj`
holding the event, the positional arguments as received, and the snapshot of
the event's receivers with `CONNECT_DIRECT` connections filtered out
(event_queue.py lines 37-41).  `kwargs` is ignored by its body. -/
def EventQueue.emit (st : PyState) (eid : Nat) (args : List Value) : PyState :=
  match st.events.get? eid with
  | some ev =>
      { st with queue := st.queue ++ [⟨eid, args, ev.receivers.filter nonDirect⟩] }
  | none => st

/-- Run a callback body.  `emitManaged` is `e.emit(*args)` on event `eid`:
when that event has a manager this is exactly the managed branch of
`Event.emit` (lines 106-108), i.e. `manager.emit(e, *args)`; the model's
callbacks only re-emit on managed events, so the unmanaged branch is not
reached and is the identity here. -/
def runAct (st : PyState) : CbAct → PyState
  | .pure => st
  | .emitManaged eid args =>
      match st.events.get? eid with
      | some ev => if ev.hasManager then EventQueue.emit st eid args else st
      | none => st

/-- Invoke `callback(*args)`: record the call and run the body. -/
def callCallback (st : PyState) (cbId : Nat) (cb : Callback) (args : List Value) : PyState :=
  runAct { st with trace := st.trace ++ [.called cbId args] } cb.act

/-- `Event.send(self, connection, *args)` (event.py lines 114-138).
Returns the new state and the boolean `send` returns.  Faithful details:
  * a dead referent: `del connection` deletes only the local name, so the
    receiver list is untouched; returns `False` (lines 115-118);
  * arity is compared as `len(signature.parameters) != len(args)`;
  * `catch_error` and mismatch: no call, a warning through the log sink when
    `log_warn_function is not None` (lines 125-128);
  * no `catch_error`: `callback(*args)` is executed; on a mismatch Python
    raises `TypeError` while binding the arguments, before the body runs,
    and the exception propagates (lines 131-132);
  * the `CONNECT_ONE_SHOT` check: `del connection` again only unbinds the
    local name — the connection stays in `receivers` — and `send` returns
    `False` (lines 134-136). -/
def Event.send (st : PyState) (eid : Nat) (conn : Connection) (args : List Value) :
    Except PyError (PyState × Bool) :=
  match deref st conn.callback with
  | none => .ok (st, false)
  | some cb =>
    match st.events.get? eid with
    | none => .ok (st, false)
    | some ev =>
      let numArgs := args.length
      let numParams := cb.params.length
      let willCauseError : Bool := numParams ≠ numArgs
      let afterCall : Except PyError PyState :=
        if ev.catch_error then
          if willCauseError then
            .ok (if ev.logWarn then
                   { st with trace := st.trace ++ [.warned numArgs numParams args] }
                 else st)
          else
            .ok (callCallback st conn.callback cb args)
        else
          if willCauseError then
            .error (.callArityMismatch numParams numArgs)
          else
            .ok (callCallback st conn.callback cb args)
      match afterCall with
      | .error e => .error e
      | .ok st' =>
          if (conn.flags &&& CONNECT_ONE_SHOT) ≠ 0 then .ok (st', false)
          else .ok (st', true)

/-- The delivery loop of `Event.emit` (lines 110-112): send to each connection
in order; the boolean result of `send` is discarded; exceptions propagate. -/
def Event.sendAll (st : PyState) (eid : Nat) (conns : List Connection) (args : List Value) :
    Except PyError PyState :=
  match conns with
  | [] => .ok st
  | c :: rest =>
    match Event.send st eid c args with
    | .error e => .error e
    | .ok (st', _) => Event.sendAll st' eid rest args

/-- Look up a keyword argument. -/
def lookupKw (kwargs : List (String × Value)) (k : String) : Option Value :=
  (kwargs.find? (fun kv => kv.1 == k)).map Prod.snd

/-- `Event.emit(self, *args, **kwargs)` (event.py lines 93-112).
  * no manager: `managed = False`;
  * manager present: `managed = kwargs["managed"]` if the key exists
    (truthiness decides the branch), else `True`;
  * managed: `self.manager.emit(self, *args, *kwargs)` and return — note
    `*kwargs` unpacks the dict positionally, i.e. its KEYS, in insertion
    order, are appended to the positional arguments as strings;
  * otherwise the direct delivery loop over `receivers`. -/
def Event.emit (st : PyState) (eid : Nat) (args : List Value)
    (kwargs : List (String × Value)) : Except PyError PyState :=
  match st.events.get? eid with
  | none => .ok st
  | some ev =>
    let managed : Bool :=
      if ev.hasManager then
        match lookupKw kwargs "managed" with
        | some v => truthy v
        | none => true
      else false
    if managed then
      .ok (EventQueue.emit st eid (args ++ kwargs.map (fun kv => Value.str kv.1)))
    else
      Event.sendAll st eid ev.receivers args

/-- `Event.connect(self, callback, flags=0)` (lines 61-73): append the weak
reference with the flags.  The model's heap holds only callables, so the
`callable(callback)` guard never fires. -/
def Event.connect (st : PyState) (eid : Nat) (cbId : Nat) (flags : Nat) : PyState :=
  modifyEvent st eid (fun ev => { ev with receivers := ev.receivers ++ [⟨cbId, flags⟩] })

/-- `self.receivers[i].callback() == callback`: a dead referent dereferences
to `None`, which compares unequal to any callable; live referents compare by
object identity, i.e. heap id. -/
def eraseMatch (st : PyState) (c : Connection) (target : Nat) : Bool :=
  match deref st c.callback with
  | some _ => c.callback == target
  | none => false

/-- The loop body of `Event.erase` (lines 81-85), faithfully: `range(len(...))`
is computed once — the `fuel` argument counts the iterations that remain of
the original `len(self.receivers)` many — `del self.receivers[i]` shrinks the
list in place, the `i -= 1` is overwritten by the `for` statement on the next
iteration, and indexing past the shrunk list raises `IndexError`. -/
def Event.eraseLoop (st : PyState) (target : Nat) :
    List Connection → Nat → Nat → Except PyError (List Connection)
  | rs, _, 0 => .ok rs
  | rs, i, fuel + 1 =>
    match rs.get? i with
    | none => .error .indexError
    | some c =>
      if eraseMatch st c target then
        Event.eraseLoop st target (rs.eraseIdx i) (i + 1) fuel
      else
        Event.eraseLoop st target rs (i + 1) fuel

/-- `Event.erase(self, callback)` (lines 75-85).  On `IndexError` the partial
in-place mutation is discarded by the `Except` model; no claim observes the
receiver list after a raising `erase`. -/
def Event.erase (st : PyState) (eid : Nat) (target : Nat) : Except PyError PyState :=
  match st.events.get? eid with
  | none => .ok st
  | some ev =>
    match Event.eraseLoop st target ev.receivers 0 ev.receivers.length with
    | .error e => .error e
    | .ok rs' => .ok (modifyEvent st eid (fun e => { e with receivers := rs' }))

/-- `Event.clear` (lines 87-91). -/
def Event.clear (st : PyState) (eid : Nat) : PyState :=
  modifyEvent st eid (fun ev => { ev with receivers := [] })

/-- `EventQueue.queued_count` (event_queue.py lines 28-29). -/
def EventQueue.queued_count (st : PyState) : Nat :=
  st.queue.length

/-- `EventQueue.empty` (lines 31-32). -/
def EventQueue.empty (st : PyState) : Bool :=
  st.queue.length == 0

/-- `EventQueue.execute(self, num_emits=1)` (lines 19-26): `num_emits` times,
stop if the queue is empty, else pop the front `EmitObj` and send to each
connection of its stored receiver snapshot with its stored arguments. -/
def EventQueue.execute (st : PyState) : Nat → Except PyError PyState
  | 0 => .ok st
  | n + 1 =>
    match st.queue with
    | [] => .ok st
    | obj :: rest =>
      match Event.sendAll { st with queue := rest } obj.event obj.receivers obj.args with
      | .error e => .error e
      | .ok st' => EventQueue.execute st' n

/-- `EventQueue.execute_all` (lines 16-17): `self.execute(self.queued_count())`
— the count is evaluated once, at call time. -/
def EventQueue.execute_all (st : PyState) : Except PyError PyState :=
  EventQueue.execute st (EventQueue.queued_count st)

/-- `TypedEvent.emit(self, *args)` (event.py lines 149-154): compare the tuple
of runtime types against the declared tags with exact equality; raise
`TypeError` on mismatch, otherwise `super().emit(*args)` (no kwargs). -/
def TypedEvent.emit (st : PyState) (eid : Nat) (paramTypes : List PyType)
    (args : List Value) : Except PyError PyState :=
  let emitTypes := args.map typeOf
  if emitTypes ≠ paramTypes then
    .error (.emitTypeMismatch paramTypes emitTypes)
  else
    Event.emit st eid args []

/-- `TypedEvent.connect(self, callback, flags=0)` (lines 156-167): count the
callback's parameters, discounting any literally named `self`; raise
`TypeError` when the count differs from the declared tag count, otherwise
`super().connect`.  `connect` receives the callable itself (alive by the
caller holding it), so the heap lookup succeeds in every scenario; a missing
id is mapped to the same error for totality. -/
def TypedEvent.connect (st : PyState) (eid : Nat) (cbId : Nat) (flags : Nat)
    (paramTypes : List PyType) : Except PyError PyState :=
  match st.heap.get? cbId with
  | none => .error (.connectArityMismatch paramTypes.length 0)
  | some cb =>
    let l := cb.params.length - (cb.params.filter (fun p => p == "self")).length
    if l ≠ paramTypes.length then
      .error (.connectArityMismatch paramTypes.length l)
    else
      .ok (Event.connect st eid cbId flags)

/-- The trace chunk a single `send` contributes when the event's `catch_error`
is set and the callback bodies are effect-free: nothing for a dead referent,
the warning for an arity mismatch (when the log sink is set), the recorded
call otherwise. -/
def sendTrace (st : PyState) (eid : Nat) (conn : Connection) (args : List Value) :
    List TraceEntry :=
  match deref st conn.callback with
  | none => []
  | some cb =>
    match st.events.get? eid with
    | none => []
    | some ev =>
      if cb.params.length ≠ args.length then
        if ev.logWarn then [.warned args.length cb.params.length args] else []
      else [.called conn.callback args]

/-- The trace a queued emission produces when drained, under the same
assumptions: its snapshot receivers in order. -/
def objTrace (st : PyState) (obj : EmitObj) : List TraceEntry :=
  (obj.receivers.map (fun c => sendTrace st obj.event c obj.args)).flatten

/-! ## Concrete scenario states -/

deriving instance DecidableEq for Except

/-- One live single-parameter callback (id 0) connected with
`CONNECT_ONE_SHOT`; no manager. -/
def c1State : PyState :=
  ⟨[⟨["s"], .pure⟩], [], [⟨[⟨0, 1⟩], true, true, false⟩], [], []⟩

/-- One live single-parameter callback connected with `CONNECT_DIRECT`; the
event has a manager. -/
def c2State : PyState :=
  ⟨[⟨["s"], .pure⟩], [], [⟨[⟨0, 2⟩], true, true, true⟩], [], []⟩

/-- Two connections; the referent of the first (id 0) has been collected, the
second (id 1) is alive; no manager. -/
def c3State : PyState :=
  ⟨[⟨["s"], .pure⟩, ⟨["s"], .pure⟩], [0], [⟨[⟨0, 0⟩, ⟨1, 0⟩], true, true, false⟩], [], []⟩

/-- Two live connections to distinct callbacks (ids 0 and 1); no manager. -/
def c4State : PyState :=
  ⟨[⟨["s"], .pure⟩, ⟨["s"], .pure⟩], [], [⟨[⟨0, 0⟩, ⟨1, 0⟩], true, true, false⟩], [], []⟩

/-- Heap: callback 0 with two parameters, callback 1 with one parameter; one
`TypedEvent` with no connections and no manager (`Event.default_manager` is
`None` in the scenario). -/
def c6State : PyState :=
  ⟨[⟨["a", "b"], .pure⟩, ⟨["s"], .pure⟩], [], [⟨[], true, true, false⟩], [], []⟩

/-- `c6State` after callback 1 has been connected. -/
def c6State₁ : PyState :=
  ⟨[⟨["a", "b"], .pure⟩, ⟨["s"], .pure⟩], [], [⟨[⟨1, 0⟩], true, true, false⟩], [], []⟩

/-- Single two-parameter live callback, one connection, `catch_error` on. -/
def c7State : PyState :=
  ⟨[⟨["a", "b"], .pure⟩], [], [⟨[⟨0, 0⟩], true, true, false⟩], [], []⟩

/-- The same scenario with `catch_error` off. -/
def c7StateB : PyState :=
  ⟨[⟨["a", "b"], .pure⟩], [], [⟨[⟨0, 0⟩], false, true, false⟩], [], []⟩

/-- A managed event with the live connection `⟨0, 0⟩`; callback 1 is connected
later. -/
def c8State : PyState :=
  ⟨[⟨["s"], .pure⟩, ⟨["s"], .pure⟩], [], [⟨[⟨0, 0⟩], true, true, true⟩], [], []⟩

/-- `c8State` after the managed `emit("v")`: the snapshot `[⟨0, 0⟩]` is stored. -/
def c8State₁ : PyState :=
  ⟨[⟨["s"], .pure⟩, ⟨["s"], .pure⟩], [], [⟨[⟨0, 0⟩], true, true, true⟩],
    [⟨0, [.str "v"], [⟨0, 0⟩]⟩], []⟩

/-- `c8State₁` after `erase` disconnected callback 0 (its object stays alive). -/
def c8StateE : PyState :=
  ⟨[⟨["s"], .pure⟩, ⟨["s"], .pure⟩], [], [⟨[], true, true, true⟩],
    [⟨0, [.str "v"], [⟨0, 0⟩]⟩], []⟩

/-- `c8StateE` after callback 1 was connected: the pending emission still
carries the emit-time snapshot `[⟨0, 0⟩]`. -/
def c8State₂ : PyState :=
  ⟨[⟨["s"], .pure⟩, ⟨["s"], .pure⟩], [], [⟨[⟨1, 0⟩], true, true, true⟩],
    [⟨0, [.str "v"], [⟨0, 0⟩]⟩], []⟩

/-- A managed event with one live zero-flag connection and two pending
emissions `"a"` then `"b"`; the callback takes one parameter. -/
def c9State : PyState :=
  ⟨[⟨["s"], .pure⟩], [], [⟨[⟨0, 0⟩], true, true, true⟩],
    [⟨0, [.str "a"], [⟨0, 0⟩]⟩, ⟨0, [.str "b"], [⟨0, 0⟩]⟩], []⟩

/-- A managed event with one live connection. -/
def c10State : PyState :=
  ⟨[⟨["s"], .pure⟩], [], [⟨[⟨0, 0⟩], true, true, true⟩], [], []⟩

/-- The pending emission of the re-entrant drain scenario: event 0 with no
arguments, snapshot holding its single connection. -/
def c5Obj : EmitObj := ⟨0, [], [⟨0, 0⟩]⟩

/-- The re-entrant drain scenario: callback 0 takes no parameters and its body
re-emits on the managed event 0, so each delivery enqueues one fresh emission;
`m` pending emissions, trace `t`. -/
def c5State (m : Nat) (t : List TraceEntry) : PyState :=
  ⟨[⟨[], .emitManaged 0 []⟩], [], [⟨[⟨0, 0⟩], true, true, true⟩],
    List.replicate m c5Obj, t⟩

/-! ## Claim theorems: concrete code bugs and the TypedEvent scenario -/

/-- Claim C1.  The spec says a `CONNECT_ONE_SHOT` connection is removed from
`receivers` immediately after its first dispatch, so the callback fires at
most once per connect.  The code's `del connection` (event.py line 135) only
unbinds the local variable, so the connection is never removed: after the
first `emit` the receiver list is unchanged and a second `emit` invokes the
callback again. -/
theorem one_shot_connection_never_removed :
    Event.emit c1State 0 [.str "hi"] [] =
      .ok { c1State with trace := [.called 0 [.str "hi"]] } ∧
    { c1State with trace := [.called 0 [.str "hi"]] }.events = c1State.events ∧
    Event.emit { c1State with trace := [.called 0 [.str "hi"]] } 0 [.str "hi"] [] =
      .ok { c1State with trace := [.called 0 [.str "hi"], .called 0 [.str "hi"]] } := by
  decide

/-- Claim C2.  The spec says a `CONNECT_DIRECT` connection is still delivered
synchronously inside `emit` when the call is managed.  In the code the managed
branch of `Event.emit` returns before the direct delivery loop (event.py
line 108), and `EventQueue.emit` filters `CONNECT_DIRECT` connections out of
the snapshot (event_queue.py line 40): the DIRECT connection is invoked
neither during `emit` (trace stays empty, the queued snapshot is empty) nor
when the queue drains. -/
theorem direct_connection_dropped_when_managed :
    Event.emit c2State 0 [.str "x"] [] =
      .ok { c2State with queue := [⟨0, [.str "x"], []⟩] } ∧
    EventQueue.execute_all { c2State with queue := [⟨0, [.str "x"], []⟩] } = .ok c2State ∧
    c2State.trace = [] := by
  decide

/-- Claim C3.  Emitting over `[dead connection, live connection]` raises no
exception and delivers to the live callback (the dead referent is silently
skipped), but — contrary to the spec's pruning requirement — the traversal
leaves the receiver list unchanged: `del connection` (event.py line 117) only
unbinds the local name, and `emit` ignores the `False` return of `send`. -/
theorem dead_weakref_skipped_but_not_pruned :
    Event.emit c3State 0 [.str "x"] [] =
      .ok { c3State with trace := [.called 1 [.str "x"]] } ∧
    { c3State with trace := [.called 1 [.str "x"]] }.events =
      [⟨[⟨0, 0⟩, ⟨1, 0⟩], true, true, false⟩] := by
  decide

/-- Claim C4.  `erase` iterates over `range(len(self.receivers))` computed
before any deletion and shrinks the list in place, so with receivers
`[matching, other]` the iteration at index 1 runs off the shrunk list and
raises `IndexError` instead of completing the removal.  The no-match case is
a genuine no-op. -/
theorem erase_raises_index_error_on_multi_receiver_match :
    Event.erase c4State 0 0 = .error .indexError ∧
    Event.erase c4State 0 7 = .ok c4State := by
  decide

/-- Claim C6.  On `TypedEvent(str)`: connecting the two-parameter callback 0
fails with the arity-mismatch `TypeError`; connecting the one-parameter
callback 1 succeeds; `emit(42)` fails with the type-mismatch `TypeError`
(exact type identity) and delivers nothing; `emit("x")` delivers `"x"`. -/
theorem typed_event_scenario :
    TypedEvent.connect c6State 0 0 0 [.strT] = .error (.connectArityMismatch 1 2) ∧
    TypedEvent.connect c6State 0 1 0 [.strT] = .ok c6State₁ ∧
    TypedEvent.emit c6State₁ 0 [.strT] [.int 42] = .error (.emitTypeMismatch [.strT] [.intT]) ∧
    TypedEvent.emit c6State₁ 0 [.strT] [.str "x"] =
      .ok { c6State₁ with trace := [.called 1 [.str "x"]] } := by
  decide

/-! ## General theorems: send arity handling, snapshot semantics, kwargs -/

/-- Claim C7.  When the callback's declared parameter count differs from the
number of emitted arguments: with `catch_error` the callback is not called and
a warning carrying the actual count, the expected count and the argument
values goes through the log sink; without `catch_error` the arity-mismatch
`TypeError` (raised by Python when binding the call) propagates — through the
delivery loop, out of `emit` — and the callback body never runs. -/
theorem send_arity_mismatch_behavior (st : PyState) (eid : Nat) (conn : Connection)
    (cb : Callback) (ev : EventRec) (args : List Value) (rs : List Connection)
    (hcb : deref st conn.callback = some cb)
    (hev : st.events.get? eid = some ev)
    (hne : cb.params.length ≠ args.length)
    (hlog : ev.logWarn = true) :
    (ev.catch_error = true →
      ∃ b, Event.send st eid conn args =
        .ok ({ st with trace := st.trace ++ [.warned args.length cb.params.length args] }, b)) ∧
    (ev.catch_error = false →
      Event.send st eid conn args = .error (.callArityMismatch cb.params.length args.length)) ∧
    (ev.catch_error = false → ev.hasManager = false → ev.receivers = conn :: rs →
      Event.emit st eid args [] = .error (.callArityMismatch cb.params.length args.length)) := by
  have hsend : ∀ hc : ev.catch_error = false,
      Event.send st eid conn args = .error (.callArityMismatch cb.params.length args.length) := by
    intro hc
    simp only [Event.send, hcb, hev, hc, hne, if_false]
    simp [hne]
  refine ⟨?_, hsend, ?_⟩
  · intro hc
    by_cases hf : (conn.flags &&& CONNECT_ONE_SHOT) ≠ 0
    · refine ⟨false, ?_⟩
      simp only [Event.send, hcb, hev, hc]
      simp [hne, hlog, hf]
    · refine ⟨true, ?_⟩
      simp only [Event.send, hcb, hev, hc]
      simp [hne, hlog, hf]
  · intro hc hm hr
    simp only [Event.emit, hev, hm, if_false]
    rw [hr]
    simp [Event.sendAll, hsend hc]

/-- Witness for `send_arity_mismatch_behavior` at a concrete mismatch. -/
theorem send_arity_mismatch_behavior_witness :
    (∃ b, Event.send c7State 0 ⟨0, 0⟩ [.str "x"] =
      .ok ({ c7State with trace := [.warned 1 2 [.str "x"]] }, b)) ∧
    Event.send c7StateB 0 ⟨0, 0⟩ [.str "x"] = .error (.callArityMismatch 2 1) ∧
    Event.emit c7StateB 0 [.str "x"] [] = .error (.callArityMismatch 2 1) := by
  have h := send_arity_mismatch_behavior c7State 0 ⟨0, 0⟩ ⟨["a", "b"], .pure⟩
    ⟨[⟨0, 0⟩], true, true, false⟩ [.str "x"] [] (by decide) (by decide) (by decide) (by decide)
  have h' := send_arity_mismatch_behavior c7StateB 0 ⟨0, 0⟩ ⟨["a", "b"], .pure⟩
    ⟨[⟨0, 0⟩], false, true, false⟩ [.str "x"] [] (by decide) (by decide) (by decide) (by decide)
  exact ⟨h.1 rfl, h'.2.1 rfl, h'.2.2 rfl rfl rfl⟩

/-- Claim C8.  The receiver snapshot of a managed emission is fixed at emit
time: the managed `emit` appends to the queue the filter of the receivers as
they are at that moment; `connect` and a successful `erase` touch only the
event, never the stored queue entries; and draining one emission delivers to
the `EmitObj`'s stored snapshot and stored arguments, whatever the event's
receiver list is by then. -/
theorem queue_snapshot_taken_at_emit_time (st : PyState) (eid : Nat) (ev : EventRec)
    (args : List Value)
    (hev : st.events.get? eid = some ev) (hm : ev.hasManager = true) :
    Event.emit st eid args [] =
      .ok { st with queue := st.queue ++ [⟨eid, args, ev.receivers.filter nonDirect⟩] } ∧
    (∀ st₁ cbId flags, (Event.connect st₁ eid cbId flags).queue = st₁.queue) ∧
    (∀ st₁ target st₂, Event.erase st₁ eid target = .ok st₂ → st₂.queue = st₁.queue) ∧
    (∀ st₂ obj, st₂.queue = [obj] →
      EventQueue.execute st₂ 1 =
        Event.sendAll { st₂ with queue := [] } obj.event obj.receivers obj.args) := by
  have hmq : ∀ st₁ f, (modifyEvent st₁ eid f).queue = st₁.queue := by
    intro st₁ f
    unfold modifyEvent
    split <;> rfl
  refine ⟨?_, ?_, ?_, ?_⟩
  · simp only [Event.emit, hev, hm, lookupKw, List.find?_nil, Option.map_none', if_true,
      EventQueue.emit, List.map_nil, List.append_nil]
  · intro st₁ cbId flags
    exact hmq st₁ _
  · intro st₁ target st₂ h
    unfold Event.erase at h
    revert h
    split
    · intro h
      cases h
      rfl
    · split
      · intro h
        cases h
      · intro h
        cases h
        exact hmq st₁ _
  · intro st₂ obj hq
    simp only [EventQueue.execute, hq]
    cases hs : Event.sendAll { st₂ with queue := [] } obj.event obj.receivers obj.args <;>
      simp [EventQueue.execute]

/-- Witness for `queue_snapshot_taken_at_emit_time`: emit, then disconnect the
old receiver and connect a new one; the drain still reads the stored snapshot
`[⟨0, 0⟩]` with the stored argument `"v"`. -/
theorem queue_snapshot_taken_at_emit_time_witness :
    Event.emit c8State 0 [.str "v"] [] = .ok c8State₁ ∧
    (Event.erase c8State₁ 0 0 = .ok c8StateE → c8StateE.queue = c8State₁.queue) ∧
    (Event.connect c8StateE 0 1 0).queue = c8StateE.queue ∧
    EventQueue.execute c8State₂ 1 =
      Event.sendAll { c8State₂ with queue := [] } 0 [⟨0, 0⟩] [.str "v"] := by
  have h := queue_snapshot_taken_at_emit_time c8State 0 ⟨[⟨0, 0⟩], true, true, true⟩
    [.str "v"] (by decide) (by decide)
  exact ⟨h.1, h.2.2.1 c8State₁ 0 c8StateE, h.2.1 c8StateE 1 0,
    h.2.2.2 c8State₂ ⟨0, [.str "v"], [⟨0, 0⟩]⟩ (by decide)⟩

/-- Claim C10.  When the managed path is taken, `Event.emit` calls
`self.manager.emit(self, *args, *kwargs)`: the kwargs mapping is unpacked
positionally, so the keyword names (in insertion order) are appended to the
positional arguments as strings in the stored emission — with no kwargs the
manager receives exactly the positional arguments. -/
theorem managed_emit_forwards_kwarg_keys_positionally (st : PyState) (eid : Nat)
    (ev : EventRec) (args : List Value) (kwargs : List (String × Value))
    (hev : st.events.get? eid = some ev) (hm : ev.hasManager = true)
    (hkw : (match lookupKw kwargs "managed" with
            | some v => truthy v
            | none => true) = true) :
    Event.emit st eid args kwargs =
      .ok { st with queue := st.queue ++
        [⟨eid, args ++ kwargs.map (fun kv => Value.str kv.1),
          ev.receivers.filter nonDirect⟩] } := by
  simp only [Event.emit, hev, hm, if_true, hkw, EventQueue.emit]

/-- Witness for `managed_emit_forwards_kwarg_keys_positionally`: an explicit
`managed=True` keyword leaks the string `"managed"` as an extra positional
argument of the stored emission. -/
theorem managed_emit_forwards_kwarg_keys_positionally_witness :
    Event.emit c10State 0 [.int 3] [("managed", .bool true)] =
      .ok { c10State with queue := [⟨0, [.int 3, .str "managed"], [⟨0, 0⟩]⟩] } := by
  have h := managed_emit_forwards_kwarg_keys_positionally c10State 0
    ⟨[⟨0, 0⟩], true, true, true⟩ [.int 3] [("managed", .bool true)]
    (by decide) (by decide) (by decide)
  exact h

/-! ## Queue accounting and FIFO order -/

/-- Under `catch_error` and effect-free callback bodies, `send` succeeds and
only appends its `sendTrace` chunk to the trace. -/
theorem send_catch_pure (st : PyState) (eid : Nat) (conn : Connection) (args : List Value)
    (hcatch : ∀ ev ∈ st.events, ev.catch_error = true)
    (hpure : ∀ cb ∈ st.heap, cb.act = .pure) :
    ∃ b, Event.send st eid conn args =
      .ok ({ st with trace := st.trace ++ sendTrace st eid conn args }, b) := by
  cases hd : deref st conn.callback with
  | none => exact ⟨false, by simp [Event.send, sendTrace, hd]⟩
  | some cb =>
    cases he : st.events.get? eid with
    | none =>
      refine ⟨false, ?_⟩
      rw [List.get?_eq_getElem?] at he
      simp [Event.send, sendTrace, hd, he]
    | some ev =>
      have hc : ev.catch_error = true := hcatch ev (List.get?_mem he)
      have hp : cb.act = .pure := by
        have hh : st.heap.get? conn.callback = some cb := by
          unfold deref at hd
          by_cases hdd : st.dead.contains conn.callback
          · rw [if_pos hdd] at hd
            cases hd
          · rwa [if_neg hdd] at hd
        exact hpure cb (List.get?_mem hh)
      rw [List.get?_eq_getElem?] at he
      by_cases hf : (conn.flags &&& CONNECT_ONE_SHOT) ≠ 0
      · refine ⟨false, ?_⟩
        by_cases hne : cb.params.length ≠ args.length
        · by_cases hl : ev.logWarn
          · simp [Event.send, sendTrace, hd, he, hc, hne, hl, hf]
          · simp [Event.send, sendTrace, hd, he, hc, hne, hl, hf]
        · simp [Event.send, sendTrace, hd, he, hc, hne, hf, callCallback, runAct, hp]
      · refine ⟨true, ?_⟩
        by_cases hne : cb.params.length ≠ args.length
        · by_cases hl : ev.logWarn
          · simp [Event.send, sendTrace, hd, he, hc, hne, hl, hf]
          · simp [Event.send, sendTrace, hd, he, hc, hne, hl, hf]
        · simp [Event.send, sendTrace, hd, he, hc, hne, hf, callCallback, runAct, hp]

/-- Under the same assumptions the delivery loop appends the chunks of its
connections, in order. -/
theorem sendAll_catch_pure (conns : List Connection) : ∀ (st : PyState) (eid : Nat)
    (args : List Value),
    (∀ ev ∈ st.events, ev.catch_error = true) → (∀ cb ∈ st.heap, cb.act = .pure) →
    Event.sendAll st eid conns args =
      .ok { st with trace := st.trace ++
        (conns.map (fun c => sendTrace st eid c args)).flatten } := by
  induction conns with
  | nil => intro st eid args _ _; simp [Event.sendAll]
  | cons c rest ih =>
    intro st eid args hcatch hpure
    obtain ⟨b, hb⟩ := send_catch_pure st eid c args hcatch hpure
    simp only [Event.sendAll, hb]
    have hrest := ih { st with trace := st.trace ++ sendTrace st eid c args } eid args
      hcatch hpure
    rw [hrest]
    have hcong : (rest.map (fun c' =>
        sendTrace { st with trace := st.trace ++ sendTrace st eid c args } eid c' args)) =
        rest.map (fun c' => sendTrace st eid c' args) := rfl
    rw [hcong]
    simp [List.append_assoc]

/-- Under the same assumptions `execute n` pops exactly the first `n` pending
emissions (all of them when fewer are queued) and appends their deliveries to
the trace in FIFO order. -/
theorem execute_catch_pure (n : Nat) : ∀ st : PyState,
    (∀ ev ∈ st.events, ev.catch_error = true) → (∀ cb ∈ st.heap, cb.act = .pure) →
    EventQueue.execute st n =
      .ok { st with
            queue := st.queue.drop n,
            trace := st.trace ++ ((st.queue.take n).map (objTrace st)).flatten } := by
  induction n with
  | zero => intro st _ _; simp [EventQueue.execute]
  | succ n ih =>
    intro st hcatch hpure
    obtain ⟨sh, sd, se, sq, str⟩ := st
    cases sq with
    | nil => simp [EventQueue.execute]
    | cons obj rest =>
      have hs := sendAll_catch_pure obj.receivers ⟨sh, sd, se, rest, str⟩ obj.event
        obj.args hcatch hpure
      simp only [EventQueue.execute, hs]
      have hnext := ih ⟨sh, sd, se, rest,
        str ++ (obj.receivers.map (fun c =>
          sendTrace ⟨sh, sd, se, rest, str⟩ obj.event c obj.args)).flatten⟩ hcatch hpure
      rw [hnext]
      simp only [List.take_succ_cons, List.drop_succ_cons, List.map_cons,
        List.flatten_cons, objTrace, List.append_assoc]
      rfl

/-- Claim C9.  A managed `emit` grows `queued_count` by exactly one; `execute n`
(so in particular a drain) removes exactly one pending emission per delivered
emission — the first `n` in the queue — and delivers them in FIFO order, the
order they were enqueued; stated for draining sequences whose callbacks do not
themselves enqueue (`catch_error` on, effect-free bodies). -/
theorem queued_count_accounting_and_fifo (st : PyState) (eid : Nat) (ev : EventRec)
    (args : List Value) (n : Nat) :
    (st.events.get? eid = some ev → ev.hasManager = true →
      ∃ st', Event.emit st eid args [] = .ok st' ∧
        EventQueue.queued_count st' = EventQueue.queued_count st + 1) ∧
    ((∀ e ∈ st.events, e.catch_error = true) → (∀ cb ∈ st.heap, cb.act = .pure) →
      EventQueue.execute st n =
        .ok { st with
              queue := st.queue.drop n,
              trace := st.trace ++ ((st.queue.take n).map (objTrace st)).flatten }) := by
  constructor
  · intro hev hm
    rw [List.get?_eq_getElem?] at hev
    refine ⟨EventQueue.emit st eid (args ++ []), ?_, ?_⟩
    · simp [Event.emit, hev, hm, lookupKw]
    · simp [EventQueue.emit, hev, EventQueue.queued_count]
  · intro hcatch hpure
    exact execute_catch_pure n st hcatch hpure

/-- Witness for `queued_count_accounting_and_fifo`: two pending emissions
`"a"`, `"b"`; a further managed emit makes the count 3; draining two delivers
`"a"` then `"b"` — the enqueue order. -/
theorem queued_count_accounting_and_fifo_witness :
    (∃ st', Event.emit c9State 0 [.str "c"] [] = .ok st' ∧
      EventQueue.queued_count st' = EventQueue.queued_count c9State + 1) ∧
    EventQueue.execute c9State 2 =
      .ok { c9State with
            queue := [],
            trace := [.called 0 [.str "a"], .called 0 [.str "b"]] } := by
  have h := queued_count_accounting_and_fifo c9State 0 ⟨[⟨0, 0⟩], true, true, true⟩
    [.str "c"] 2
  refine ⟨h.1 (by decide) (by decide), ?_⟩
  have h2 := h.2 (by decide) (by decide)
  exact h2

/-! ## The re-entrant drain -/

/-- One drain step of the re-entrant scenario: the popped emission calls
callback 0, whose body re-emits on the managed event, appending an identical
emission — the queue keeps its length. -/
theorem c5_step (m : Nat) (t : List TraceEntry) (n : Nat) :
    EventQueue.execute (c5State (m + 1) t) (n + 1) =
      EventQueue.execute (c5State (m + 1) (t ++ [.called 0 []])) n := by
  show EventQueue.execute
      ⟨[⟨[], .emitManaged 0 []⟩], [], [⟨[⟨0, 0⟩], true, true, true⟩],
        List.replicate m c5Obj ++ [c5Obj], t ++ [.called 0 []]⟩ n =
    EventQueue.execute (c5State (m + 1) (t ++ [.called 0 []])) n
  rw [← List.replicate_succ']
  rfl

/-- Draining `n` steps of the re-entrant scenario delivers `n` calls and keeps
`m + 1` pending emissions. -/
theorem c5_drain (n : Nat) : ∀ (m : Nat) (t : List TraceEntry),
    EventQueue.execute (c5State (m + 1) t) n =
      .ok (c5State (m + 1) (t ++ List.replicate n (.called 0 []))) := by
  induction n with
  | zero =>
    intro m t
    simp [EventQueue.execute]
  | succ n ih =>
    intro m t
    rw [c5_step m t n, ih m (t ++ [TraceEntry.called 0 []])]
    rw [List.append_assoc]
    rfl

/-- Claim C5, counterexample.  With one pending emission whose delivery
re-emits on the managed event, `execute_all` returns with the queue NOT
drained to empty: the emission enqueued during the drain is still pending. -/
theorem execute_all_leaves_reentrant_emissions_queued :
    EventQueue.execute_all (c5State 1 []) = .ok (c5State 1 [.called 0 []]) ∧
    (c5State 1 [.called 0 []]).queue ≠ [] := by
  decide

/-- Claim C5, amended.  `execute_all` runs `execute(queued_count())` with the
count read once, at call time: it delivers exactly the `m + 1` emissions
pending at call start, and the emissions enqueued as a side effect of those
deliveries remain queued — `queued_count` is back at `m + 1`, not 0. -/
theorem execute_all_drains_exactly_initial_count (m : Nat) (t : List TraceEntry) :
    EventQueue.execute_all (c5State (m + 1) t) =
      .ok (c5State (m + 1) (t ++ List.replicate (m + 1) (.called 0 []))) ∧
    EventQueue.queued_count (c5State (m + 1) (t ++ List.replicate (m + 1) (.called 0 []))) =
      EventQueue.queued_count (c5State (m + 1) t) := by
  constructor
  · have hq : EventQueue.queued_count (c5State (m + 1) t) = m + 1 := by
      simp [EventQueue.queued_count, c5State]
    unfold EventQueue.execute_all
    rw [hq]
    exact c5_drain (m + 1) m t
  · simp [EventQueue.queued_count, c5State]

end Piney
